import Mathlib

/-!
Verification of the git-log-search CLI against its design description.

The development shallowly embeds the Python sources:
  message.py                         (prepare, list_embeddings, search, cleanup)
  utilities/git_command_utilities.py (_extract_commits_with_message)
  utilities/embeddings.py            (_get_embeddings)
  utilities/llm_provider.py          (_get_llm_provider)
  utilities/api_key_manager.py       (_get_api_key, _get_api_key_openai)

External effects (the filesystem, the process environment, the output of the
git subprocesses, the vector store, the LLM) are passed in explicitly as
record fields; typer.Exit(code) is an Except error carrying the code and the
echoed message.  Python strings are Lean Strings; slicing, split, strip and
splitlines are modelled on the underlying character lists (str.strip over the
ASCII whitespace characters).
-/

namespace GitLogSearch

/-- ASCII whitespace characters removed by str.strip() with no arguments. -/
def isPyWhitespace (c : Char) : Bool :=
  c = ' ' || c = '\t' || c = '\n' || c = '\r' || c = '\x0b' || c = '\x0c'

/-- Python str.strip() on a character list: whitespace removed at both ends. -/
def pyStripList (s : List Char) : List Char :=
  ((s.dropWhile isPyWhitespace).reverse.dropWhile isPyWhitespace).reverse

/-- Python str.strip() on a string. -/
def pyStrip (s : String) : String :=
  ⟨pyStripList s.data⟩

/-- Python str.split(sep) for a one-character separator and no maxsplit:
empty pieces are kept, and the empty string yields one empty piece. -/
def splitCharAll (sep : Char) : List Char → List (List Char)
  | [] => [[]]
  | c :: cs =>
    if c = sep then [] :: splitCharAll sep cs
    else
      match splitCharAll sep cs with
      | [] => [[c]]
      | p :: ps => (c :: p) :: ps

/-- Python str.split(sep, maxsplit) for a one-character separator: at most
the given number of splits are performed, counting from the left. -/
def splitCharN (sep : Char) : Nat → List Char → List (List Char)
  | _, [] => [[]]
  | 0, s => [s]
  | Nat.succ n, c :: cs =>
    if c = sep then [] :: splitCharN sep n cs
    else
      match splitCharN sep (Nat.succ n) cs with
      | [] => [[c]]
      | p :: ps => (c :: p) :: ps

/-- The langchain Document built by the commit extractor: page_content is the
commit message, the metadata dictionary holds sha, author and date. -/
structure Document where
  page_content : String
  sha : String
  author : String
  date : String
deriving DecidableEq, Repr

/-- The field separator %x1f used in the git log pretty format. -/
def usChar : Char := '\x1f'

/-- The record separator %x1e used in the git log pretty format. -/
def rsChar : Char := '\x1e'

/-- The entries iterated over by _extract_commits_with_message:
raw.strip().split(record separator). -/
def logEntries (raw : String) : List (List Char) :=
  splitCharAll rsChar (pyStripList raw.data)

/-- Building a Document from the four split fields sha, author, date, message;
the catch-all branch is never reached by the extractor, which checks the
length first. -/
def docOfParts : List (List Char) → Document
  | [sha, author, date, message] => ⟨⟨message⟩, ⟨sha⟩, ⟨author⟩, ⟨date⟩⟩
  | _ => ⟨"", "", "", ""⟩

/-- Outcome of one iteration of the extractor loop body. -/
inductive EntryOutcome where
  | blank
  | malformed (parts : List (List Char))
  | ok (d : Document)
deriving DecidableEq, Repr

/-- One iteration of the loop body of _extract_commits_with_message:
a blank entry is skipped silently; an entry whose split on the field
separator (maxsplit 4) does not have exactly four parts is skipped with a
warning carrying the parts; otherwise a Document is produced. -/
def parseEntry (entry : List Char) : EntryOutcome :=
  if (pyStripList entry).isEmpty then .blank
  else
    let parts := splitCharN usChar 4 entry
    if parts.length = 4 then .ok (docOfParts parts) else .malformed parts

/-- The extractor loop over the entries, accumulating documents and
warnings in iteration order. -/
def extractGo : List (List Char) → List Document × List (List (List Char))
  | [] => ([], [])
  | e :: es =>
    let rest := extractGo es
    match parseEntry e with
    | .blank => rest
    | .malformed parts => (rest.1, parts :: rest.2)
    | .ok d => (d :: rest.1, rest.2)

/-- _extract_commits_with_message from utilities/git_command_utilities.py,
as a function of the raw git log output: the documents and the
malformed-entry warnings, in order.  The function is total: a malformed
entry contributes a warning, never a failure of the whole run. -/
def extractCommits (raw : String) : List Document × List (List (List Char)) :=
  extractGo (logEntries raw)

/-- An entry is blank when its strip is empty (skipped silently). -/
def entryBlank (e : List Char) : Bool :=
  (pyStripList e).isEmpty

/-- An entry splits into exactly four fields under split(sep, 4). -/
def entrySplitsInFour (e : List Char) : Bool :=
  (splitCharN usChar 4 e).length == 4

/-- typer.Exit after an error message echoed to stderr. -/
structure Failure where
  code : Nat
  message : String
deriving DecidableEq, Repr

/-- The process environment: os.getenv returns none when a variable is unset. -/
structure OsEnv where
  OPENAI_API_KEY : Option String
deriving DecidableEq, Repr

/-- The message echoed when the OpenAI API key is missing. -/
def apiKeyMissingMsg : String :=
  "Error: OPENAI_API_KEY is not set. Run export OPENAI_API_KEY=\x27<key>\x27"

/-- _get_api_key_openai from utilities/api_key_manager.py: the Python test
reads if not key, which fires on both None (unset) and the empty string. -/
def getApiKeyOpenai (env : OsEnv) : Except Failure String :=
  match env.OPENAI_API_KEY with
  | none => .error ⟨1, apiKeyMissingMsg⟩
  | some key => if key = "" then .error ⟨1, apiKeyMissingMsg⟩ else .ok key

/-- _get_api_key from utilities/api_key_manager.py (the error text for the
unknown case is copied from the source, which reuses the embedding wording). -/
def getApiKey (env : OsEnv) (provider : String) : Except Failure String :=
  match provider with
  | "openai" => getApiKeyOpenai env
  | _ => .error ⟨1, "Unknown embedding provider: " ++ provider⟩

/-- The embedding client value constructed by _get_embeddings. -/
inductive EmbeddingsClient where
  | huggingFace (model_name : String)
  | openAI (model : String)
deriving DecidableEq, Repr

/-- _get_embeddings from utilities/embeddings.py: hf builds a HuggingFace
client, openai checks the API key then builds an OpenAI client, anything
else echoes an unknown-provider error and exits with code 1. -/
def getEmbeddings (env : OsEnv) (provider model : String) : Except Failure EmbeddingsClient :=
  if provider = "hf" then .ok (.huggingFace model)
  else if provider = "openai" then
    (getApiKey env "openai").map fun _ => .openAI model
  else .error ⟨1, "Unknown embedding provider: " ++ provider⟩

/-- The chat client value constructed by _get_llm_provider. -/
inductive LlmClient where
  | chatOpenAI (model : String)
deriving DecidableEq, Repr

/-- _get_llm_provider_openai from utilities/llm_provider.py. -/
def getLlmProviderOpenai (env : OsEnv) (model : String) : Except Failure LlmClient :=
  (getApiKey env "openai").map fun _ => .chatOpenAI model

/-- _get_llm_provider from utilities/llm_provider.py: only openai is
implemented; anything else echoes an unknown-provider error and exits 1. -/
def getLlmProvider (env : OsEnv) (provider model : String) : Except Failure LlmClient :=
  match provider with
  | "openai" => getLlmProviderOpenai env model
  | _ => .error ⟨1, "Unknown LLM provider: " ++ provider⟩

/-- The fixed working directory at the top of message.py. -/
def root_dir : String := ".tmp"

/-- The node name in _get_embeddings_store_paths: the resolved folder name
with spaces replaced by underscores. -/
def nodeName (folderName : String) : String :=
  ⟨folderName.data.map fun c => if c = ' ' then '_' else c⟩

/-- The metadata filename built by _get_embeddings_store_paths. -/
def embedFilename (folderName timestamp : String) : String :=
  root_dir ++ "/" ++ nodeName folderName ++ "-embeddings-" ++ timestamp ++ ".json"

/-- The chroma directory name built by _get_embeddings_store_paths. -/
def chromaDirName (timestamp : String) : String :=
  root_dir ++ "/.git_gpt_chroma_db_" ++ timestamp

/-- The JSON payload written by prepare: exactly these six fields. -/
structure Payload where
  branch : String
  created_at : String
  provider : String
  doc_count : Nat
  path : String
  chroma_dir : String
deriving DecidableEq, Repr

/-- The ambient state one prepare invocation observes: whether folder/.git
exists, the outputs of the two git subprocesses, the two clock reads, the
resolved folder name, str(folder), and the process environment. -/
structure PrepareEnv where
  hasGitDir : Bool
  branchRaw : String
  rawLog : String
  timestamp : String
  utcnowIso : String
  folderName : String
  folderStr : String
  os : OsEnv
deriving DecidableEq, Repr

/-- A metadata file write performed by embed_file.write_text. -/
structure FileWrite where
  path : String
  payload : Payload
deriving DecidableEq, Repr

/-- The message echoed by prepare when folder/.git does not exist. -/
def repoMissingMsg : String :=
  "Error: provided folder is missing or is not a Git repository"

/-- The prepare command of message.py: the .git precondition check, path
construction, branch read, commit extraction, embeddings construction
(which may itself exit), vector store creation (external, returns no data
prepare uses), then the single metadata write.  The result lists the
metadata file writes performed. -/
def prepare (env : PrepareEnv) (provider model : String) : Except Failure (List FileWrite) :=
  if !env.hasGitDir then .error ⟨1, repoMissingMsg⟩
  else
    let embed_file := embedFilename env.folderName env.timestamp
    let chroma_dir := chromaDirName env.timestamp
    let branch := pyStrip env.branchRaw
    let docs := (extractCommits env.rawLog).1
    (getEmbeddings env.os provider model).map fun _ =>
      [⟨embed_file,
        { branch := branch
          created_at := env.utcnowIso ++ "Z"
          provider := provider
          doc_count := docs.length
          path := env.folderStr
          chroma_dir := chroma_dir }⟩]

/-- write_text at a path: the file is created if absent, overwritten in
place if already present; modelled on the set of existing file names. -/
def applyWrite (fs : List String) (path : String) : List String :=
  if path ∈ fs then fs else fs ++ [path]

/-- The metadata files present after a sequence of prepare invocations
against an initially empty working directory: each invocation contributes
the writes of prepare (none when it exits early). -/
def runPrepares (invs : List (PrepareEnv × String × String)) : List String :=
  invs.foldl
    (fun fs inv =>
      match prepare inv.1 inv.2.1 inv.2.2 with
      | .ok writes => writes.foldl (fun a w => applyWrite a w.path) fs
      | .error _ => fs)
    []

/-- The trailing part a metadata filename has when it was built with the
given timestamp. -/
def timestampSuffix (timestamp : String) : String :=
  "-embeddings-" ++ timestamp ++ ".json"

/-- Suffix test on strings via the underlying character lists. -/
def strEndsWith (name post : String) : Bool :=
  name.data.drop (name.data.length - post.data.length) == post.data

/-- Glob matching with the star wildcard only (the pattern
*-embeddings-*.json uses nothing else); a star matches any character
sequence within a filename.  Each step consumes pattern or filename, so
fuel equal to the sum of lengths plus one is never exhausted; the fuel
keeps the recursion structural. -/
def globMatchF : Nat → List Char → List Char → Bool
  | 0, _, _ => false
  | fuel + 1, p, s =>
    match p, s with
    | [], [] => true
    | [], _ :: _ => false
    | '*' :: ps, [] => globMatchF fuel ps []
    | '*' :: ps, c :: s' => globMatchF fuel ps (c :: s') || globMatchF fuel ('*' :: ps) s'
    | _ :: _, [] => false
    | pc :: ps, c :: s' => pc = c && globMatchF fuel ps s'

/-- Glob matching at adequate fuel. -/
def globMatch (p s : List Char) : Bool :=
  globMatchF (p.length + s.length + 1) p s

/-- The glob pattern both search and list_embeddings and cleanup use. -/
def embedGlobPat : String := "*-embeddings-*.json"

/-- Whether a filename matches *-embeddings-*.json. -/
def matchesEmbedGlob (name : String) : Bool :=
  globMatch embedGlobPat.data name.data

/-- Path(root_dir).glob applied to the embeddings pattern: the directory
entries whose names match. -/
def globEmbedFiles (names : List String) : List String :=
  names.filter matchesEmbedGlob

/-- Line boundary characters recognised by Python str.splitlines. -/
def isLineBound (c : Char) : Bool :=
  c = '\n' || c = '\r' || c = '\x0b' || c = '\x0c' ||
  c = '\x1c' || c = '\x1d' || c = '\x1e' || c = '\x85' ||
  c = '\u2028' || c = '\u2029'

/-- Scanner state for str.splitlines: completed lines in reverse, the open
line in reverse character order (none when no line is open), and whether
the previous character was a carriage return that already closed a line. -/
structure SplitlinesState where
  revLines : List (List Char)
  cur : Option (List Char)
  afterCR : Bool

/-- One character step of str.splitlines: a newline right after a carriage
return is consumed silently, any other boundary character closes the open
line (possibly empty), and an ordinary character extends the open line. -/
def splitlinesStep (st : SplitlinesState) (c : Char) : SplitlinesState :=
  if st.afterCR && c = '\n' then { st with afterCR := false }
  else if isLineBound c then
    { revLines := (st.cur.getD []).reverse :: st.revLines, cur := none, afterCR := c = '\r' }
  else
    { revLines := st.revLines, cur := some (c :: st.cur.getD []), afterCR := false }

/-- Python str.splitlines on a character list. -/
def pySplitlinesList (s : List Char) : List (List Char) :=
  let st := s.foldl splitlinesStep ⟨[], none, false⟩
  (match st.cur with
   | none => st.revLines
   | some l => l.reverse :: st.revLines).reverse

/-- A scanner state that already guarantees at least one output line. -/
def slNonempty (st : SplitlinesState) : Prop :=
  st.revLines ≠ [] ∨ st.cur.isSome = true

/-- doc.page_content[:100].splitlines()[0] in the search loop; none models
the IndexError raised when the splitlines list is empty. -/
def firstLineTrunc (s : String) : Option String :=
  (pySplitlinesList (s.data.take 100)).head?.map fun l => ⟨l⟩

/-- The line echoed for one search result. -/
def echoLine (sha author date message : String) : String :=
  "- " ++ sha ++ ": " ++ author ++ " on " ++ date ++ ": " ++ message ++ "..."

/-- The line appended to the commits accumulator for one search result. -/
def commitLine (sha author date message : String) : String :=
  "-commit: " ++ sha ++ ": author: " ++ author ++ ", date: " ++ date
    ++ ", message: " ++ message ++ "...\n"

/-- Failure modes of the search command: a typer.Exit with code and message,
the uncaught IndexError from splitlines()[0] on an empty message, or an
uncaught formatting error from the prompt template. -/
inductive SearchError where
  | exit (f : Failure)
  | indexError
  | formatError
deriving DecidableEq, Repr

/-- The result-formatting loop of search over the retrieved documents:
the echoed lines and the commits accumulator, or the IndexError. -/
def formatResults : List Document → Except SearchError (List String × String)
  | [] => .ok ([], "")
  | d :: ds =>
    match firstLineTrunc d.page_content with
    | none => .error .indexError
    | some message =>
      (formatResults ds).map fun rest =>
        (echoLine d.sha d.author d.date message :: rest.1,
         commitLine d.sha d.author d.date message ++ rest.2)

/-- The opening curly brace character. -/
def braceL : Char := '\x7b'

/-- The closing curly brace character. -/
def braceR : Char := '\x7d'

/-- Looking a field name up among the keyword arguments given to format. -/
def lookupVar (vars : List (List Char × String)) (name : List Char) : Option String :=
  match vars with
  | [] => none
  | (k, v) :: rest => if k = name then some v else lookupVar rest name

/-- Scanner mode for Python str.format: plain text, just after a closing
brace seen in plain text (which must be doubled), or inside a substitution
field carrying the reversed field name accumulated so far. -/
inductive FmtMode where
  | text
  | closeBrace
  | field (revName : List Char)

/-- Python str.format scanning of a template: literal text is copied, a
doubled brace is an escaped brace, an opening brace starts a substitution
field, a lone closing brace is an error (none).  Only plain field names are
supported, which is all the template of search uses; an unknown name or an
unterminated field is an error (none). -/
def pyFormatScan (vars : List (List Char × String)) :
    FmtMode → List Char → Option (List Char)
  | .text, [] => some []
  | .text, c :: rest =>
    if c = braceL then pyFormatScan vars (.field []) rest
    else if c = braceR then pyFormatScan vars .closeBrace rest
    else (pyFormatScan vars .text rest).map (c :: ·)
  | .closeBrace, [] => none
  | .closeBrace, c :: rest =>
    if c = braceR then (pyFormatScan vars .text rest).map (braceR :: ·) else none
  | .field _, [] => none
  | .field acc, c :: rest =>
    if acc = [] && c = braceL then (pyFormatScan vars .text rest).map (braceL :: ·)
    else if c = braceR then
      match lookupVar vars acc.reverse with
      | none => none
      | some v => (pyFormatScan vars .text rest).map (v.data ++ ·)
    else pyFormatScan vars (.field (c :: acc)) rest

/-- Python str.format of a whole template. -/
def pyFormatGo (vars : List (List Char × String)) (t : List Char) : Option (List Char) :=
  pyFormatScan vars .text t

/-- The system prompt defined inside search (triple-quoted, so the
continuation lines keep their eight-space indentation). -/
def system_prompt : String :=
  "You are a helpful Engineer who understands how development works\n        and answers questions about git commit changes. You are concise, accurate, and explain all commit messages\n        which are relevant to the question clearly using developer-friendly language and provide all relevant details\n        including the commit hash, author, date, and message. Answer only based on the commit messages provided.\n        If you don\x27t know the answer, say so."

/-- The template handed to PromptTemplate: the system prompt followed by the
commits and question substitution fields. -/
def promptTemplate : String :=
  system_prompt ++ "\n\nCommit Messages:\n\x7bcommits\x7d\n\nQuestion:\n\x7bquestion\x7d"

/-- chain.invoke of the prompt template with the commits block and the
query: Python str.format of the template over those two keywords. -/
def builtPrompt (commits question : String) : Option String :=
  (pyFormatGo [("commits".data, commits), ("question".data, question)]
      promptTemplate.data).map fun l => ⟨l⟩

/-- Python string comparison (also the comparison of pathlib paths within a
single directory): strict lexicographic order on code points. -/
def pyStrLtList : List Char → List Char → Bool
  | [], [] => false
  | [], _ :: _ => true
  | _ :: _, [] => false
  | a :: as, b :: bs =>
    if a.toNat < b.toNat then true
    else if b.toNat < a.toNat then false
    else pyStrLtList as bs

/-- Python string comparison on strings. -/
def pyStrLt (a b : String) : Bool :=
  pyStrLtList a.data b.data

/-- sorted(files)[-1]: the file greatest in Python string order, none when
the list is empty. -/
def latestOf (files : List String) : Option String :=
  match files with
  | [] => none
  | f :: fs => some (fs.foldl (fun a b => if pyStrLt a b then b else a) f)

/-- The ambient state one search invocation observes: the names of the
entries of the working directory, the parsed JSON payload of each metadata
file, the documents the similarity search returns (the vector store being
external), and the process environment. -/
structure SearchEnv where
  dirNames : List String
  content : String → Payload
  results : List Document
  os : OsEnv

/-- What a completed search run did: the chroma directory the vector store
was opened on, the embedding client the query is embedded with, the echoed
result lines, the commits accumulator, and the prompt forwarded to the LLM
(none without the summarize flag). -/
structure SearchOutcome where
  chromaDirUsed : String
  embeddingUsed : EmbeddingsClient
  echoLines : List String
  commitsBlock : String
  promptSent : Option String
deriving DecidableEq, Repr

/-- The message echoed when the query exceeds 200 characters. -/
def queryTooLongMsg : String := "Error: Query exceeds 200 characters."

/-- The message echoed when no metadata file matches the glob. -/
def noEmbedMsg : String := "No embeddings found. Run \x27prepare\x27 first."

/-- The search command of message.py: the query length check, the glob for
metadata files, the choice of the last file in sorted order, the read of
chroma_dir from that file, the embedding construction from the
command-line provider and model, the similarity search (external: its
result is env.results, the limit k is consumed by that external call), the
result-formatting loop, and under the summarize flag the LLM construction
and the prompt formatting. -/
def search (env : SearchEnv) (query provider model : String) (summarize : Bool)
    (llm_provider llm_model : String) (_k : Nat) : Except SearchError SearchOutcome :=
  if query.length > 200 then .error (.exit ⟨1, queryTooLongMsg⟩)
  else
    match latestOf (globEmbedFiles env.dirNames) with
    | none => .error (.exit ⟨1, noEmbedMsg⟩)
    | some latest =>
      let chroma_dir := (env.content latest).chroma_dir
      match getEmbeddings env.os provider model with
      | .error f => .error (.exit f)
      | .ok emb =>
        match formatResults env.results with
        | .error e => .error e
        | .ok (lines, commits) =>
          if summarize then
            match getLlmProvider env.os llm_provider llm_model with
            | .error f => .error (.exit f)
            | .ok _ =>
              match builtPrompt commits query with
              | none => .error .formatError
              | some prompt => .ok ⟨chroma_dir, emb, lines, commits, some prompt⟩
          else .ok ⟨chroma_dir, emb, lines, commits, none⟩

/-- Whether a search result is a typer.Exit with code 1. -/
def isExitCodeOne (r : Except SearchError SearchOutcome) : Bool :=
  match r with
  | .error (.exit f) => f.code == 1
  | _ => false

theorem extractGo_eq (es : List (List Char)) :
    extractGo es
      = ((es.filter fun e => !entryBlank e && entrySplitsInFour e).map
            fun e => docOfParts (splitCharN usChar 4 e),
         (es.filter fun e => !entryBlank e && !entrySplitsInFour e).map
            fun e => splitCharN usChar 4 e) := by
  induction es with
  | nil => rfl
  | cons e es ih =>
    by_cases hb : (pyStripList e).isEmpty
    · simp [extractGo, parseEntry, hb, entryBlank, ih]
    · by_cases h4 : (splitCharN usChar 4 e).length = 4
      · simp [extractGo, parseEntry, hb, h4, entryBlank, entrySplitsInFour, ih]
      · simp [extractGo, parseEntry, hb, h4, entryBlank, entrySplitsInFour, ih]

/-- Claim C1: for every git log output string, the extractor returns one
commit record per entry that splits into exactly four fields, built from
those four fields (sha, author, date, message), in the order the entries
appear in the output; and it emits one warning per non-blank entry that does
not split into exactly four fields, skipping it; blank entries are skipped
silently.  The extractor is a total function, so a malformed entry never
fails the whole run. -/
theorem C1_extract_commits (raw : String) :
    (extractCommits raw).1
      = (((logEntries raw).filter fun e => !entryBlank e && entrySplitsInFour e).map
            fun e => docOfParts (splitCharN usChar 4 e))
    ∧ (extractCommits raw).2
      = (((logEntries raw).filter fun e => !entryBlank e && !entrySplitsInFour e).map
            fun e => splitCharN usChar 4 e) := by
  unfold extractCommits
  rw [extractGo_eq]
  exact ⟨rfl, rfl⟩

/-- Claim C7: provider dispatch is an enumerated choice: every embedding
provider string other than hf and openai makes _get_embeddings report an
unknown-provider error and exit with code 1, and every LLM provider string
other than openai makes _get_llm_provider report an unknown-provider error
and exit with code 1. -/
theorem C7_provider_dispatch :
    (∀ (env : OsEnv) (p m : String), p ≠ "hf" → p ≠ "openai" →
      getEmbeddings env p m = .error ⟨1, "Unknown embedding provider: " ++ p⟩)
    ∧ (∀ (env : OsEnv) (p m : String), p ≠ "openai" →
      getLlmProvider env p m = .error ⟨1, "Unknown LLM provider: " ++ p⟩) := by
  constructor
  · intro env p m hhf hoa
    simp [getEmbeddings, hhf, hoa]
  · intro env p m hoa
    unfold getLlmProvider
    split
    · exact absurd rfl hoa
    · rfl

theorem C7_provider_dispatch_witness :
    getEmbeddings ⟨none⟩ "foo" "m" = .error ⟨1, "Unknown embedding provider: foo"⟩
    ∧ getLlmProvider ⟨none⟩ "bar" "m" = .error ⟨1, "Unknown LLM provider: bar"⟩ :=
  ⟨C7_provider_dispatch.1 ⟨none⟩ "foo" "m" (by decide) (by decide),
   C7_provider_dispatch.2 ⟨none⟩ "bar" "m" (by decide)⟩

/-- Claim C8: when the openai embedding or LLM provider is selected and
OPENAI_API_KEY is unset or empty, the run reports the missing-key error and
exits with code 1; with the variable set to a non-empty value, provider
construction proceeds and yields the client. -/
theorem C8_api_key_gate :
    (∀ m : String,
      getEmbeddings ⟨none⟩ "openai" m = .error ⟨1, apiKeyMissingMsg⟩
      ∧ getLlmProvider ⟨none⟩ "openai" m = .error ⟨1, apiKeyMissingMsg⟩
      ∧ getEmbeddings ⟨some ""⟩ "openai" m = .error ⟨1, apiKeyMissingMsg⟩
      ∧ getLlmProvider ⟨some ""⟩ "openai" m = .error ⟨1, apiKeyMissingMsg⟩)
    ∧ (∀ (m k : String), k ≠ "" →
      getEmbeddings ⟨some k⟩ "openai" m = .ok (.openAI m)
      ∧ getLlmProvider ⟨some k⟩ "openai" m = .ok (.chatOpenAI m)) := by
  refine ⟨fun m => ⟨rfl, rfl, rfl, rfl⟩, fun m k hk => ?_⟩
  constructor
  · simp [getEmbeddings, getApiKey, getApiKeyOpenai, hk, Except.map]
  · simp [getLlmProvider, getLlmProviderOpenai, getApiKey, getApiKeyOpenai, hk, Except.map]

theorem C8_api_key_gate_witness :
    getEmbeddings ⟨none⟩ "openai" "text-embedding-3-small" = .error ⟨1, apiKeyMissingMsg⟩
    ∧ getEmbeddings ⟨some "sk-test"⟩ "openai" "text-embedding-3-small"
        = .ok (.openAI "text-embedding-3-small")
    ∧ getLlmProvider ⟨some "sk-test"⟩ "openai" "gpt-4.1-nano"
        = .ok (.chatOpenAI "gpt-4.1-nano") :=
  ⟨(C8_api_key_gate.1 "text-embedding-3-small").1,
   (C8_api_key_gate.2 "text-embedding-3-small" "sk-test" (by decide)).1,
   (C8_api_key_gate.2 "gpt-4.1-nano" "sk-test" (by decide)).2⟩

/-- Claim C5: every successful prepare invocation writes exactly one
metadata file; its payload is the record with exactly the six fields
branch, created_at, provider, doc_count, path, chroma_dir (the Payload
type); the filename contains the timestamp; and doc_count equals the number
of commit records extracted from the repository log. -/
theorem C5_prepare_single_metadata_write (env : PrepareEnv) (provider model : String)
    (writes : List FileWrite) (h : prepare env provider model = .ok writes) :
    ∃ w, writes = [w]
      ∧ w.path = embedFilename env.folderName env.timestamp
      ∧ (∃ pre post, w.path = pre ++ env.timestamp ++ post)
      ∧ w.payload.doc_count = (extractCommits env.rawLog).1.length
      ∧ w.payload =
          { branch := pyStrip env.branchRaw
            created_at := env.utcnowIso ++ "Z"
            provider := provider
            doc_count := (extractCommits env.rawLog).1.length
            path := env.folderStr
            chroma_dir := chromaDirName env.timestamp } := by
  unfold prepare at h
  by_cases hg : env.hasGitDir
  · simp only [hg, Bool.not_true, Bool.false_eq_true, if_false] at h
    cases hemb : getEmbeddings env.os provider model with
    | error f => rw [hemb] at h; exact absurd h (by simp [Except.map])
    | ok e =>
      rw [hemb] at h
      simp only [Except.map, Except.ok.injEq] at h
      refine ⟨_, h.symm, rfl, ⟨root_dir ++ "/" ++ nodeName env.folderName ++ "-embeddings-",
        ".json", ?_⟩, rfl, rfl⟩
      simp [embedFilename, String.append_assoc]
  · simp [hg] at h

theorem C5_prepare_single_metadata_write_witness :
    prepare ⟨true, "main\n", "abc123\x1fAlice\x1fMon Jan 1\x1ffix bug\x1e", "20250101000000",
        "2025-01-01T00:00:00", "repo", "repo", ⟨none⟩⟩ "hf" "BAAI/bge-small-en-v1.5"
      = .ok [⟨".tmp/repo-embeddings-20250101000000.json",
          { branch := "main"
            created_at := "2025-01-01T00:00:00Z"
            provider := "hf"
            doc_count := 1
            path := "repo"
            chroma_dir := ".tmp/.git_gpt_chroma_db_20250101000000" }⟩]
    ∧ (".tmp/repo-embeddings-20250101000000.json" : String)
        = ".tmp/repo-embeddings-" ++ "20250101000000" ++ ".json" := by
  obtain ⟨w, hw, hpath, -, -, -⟩ := C5_prepare_single_metadata_write
    ⟨true, "main\n", "abc123\x1fAlice\x1fMon Jan 1\x1ffix bug\x1e", "20250101000000",
      "2025-01-01T00:00:00", "repo", "repo", ⟨none⟩⟩ "hf" "BAAI/bge-small-en-v1.5"
    [⟨".tmp/repo-embeddings-20250101000000.json",
      { branch := "main"
        created_at := "2025-01-01T00:00:00Z"
        provider := "hf"
        doc_count := 1
        path := "repo"
        chroma_dir := ".tmp/.git_gpt_chroma_db_20250101000000" }⟩] rfl
  exact ⟨rfl, rfl⟩

theorem splitlinesStep_nonempty (st : SplitlinesState) (c : Char)
    (h : slNonempty st) : slNonempty (splitlinesStep st c) := by
  unfold splitlinesStep
  by_cases h1 : st.afterCR && c = '\n'
  · simpa [h1] using h
  · by_cases h2 : isLineBound c
    · simp [h1, h2, slNonempty]
    · simp [h1, h2, slNonempty]

theorem splitlinesFold_nonempty (s : List Char) (st : SplitlinesState)
    (h : slNonempty st) : slNonempty (s.foldl splitlinesStep st) := by
  induction s generalizing st with
  | nil => exact h
  | cons c cs ih => exact ih _ (splitlinesStep_nonempty st c h)

theorem pySplitlinesList_ne_nil (s : List Char) (h : s ≠ []) :
    pySplitlinesList s ≠ [] := by
  match s, h with
  | c :: cs, _ =>
    unfold pySplitlinesList
    have h0 : slNonempty (splitlinesStep ⟨[], none, false⟩ c) := by
      unfold splitlinesStep
      by_cases h2 : isLineBound c
      · simp [h2, slNonempty]
      · simp [h2, slNonempty]
    have hf := splitlinesFold_nonempty cs _ h0
    simp only [List.foldl_cons]
    rcases hf with hl | hc
    · cases hcur : (List.foldl splitlinesStep (splitlinesStep ⟨[], none, false⟩ c) cs).cur
      · simpa [hcur] using hl
      · simp [hcur]
    · cases hcur : (List.foldl splitlinesStep (splitlinesStep ⟨[], none, false⟩ c) cs).cur
      · rw [hcur] at hc; simp at hc
      · simp [hcur]

theorem firstLineTrunc_isSome (s : String) (h : s ≠ "") :
    (firstLineTrunc s).isSome = true := by
  have hd : s.data ≠ [] := fun hnil => h (by cases s; simp_all)
  have ht : s.data.take 100 ≠ [] := by
    match hs : s.data, hd with
    | c :: cs, _ => simp [List.take]
  have := pySplitlinesList_ne_nil _ ht
  unfold firstLineTrunc
  cases hh : (pySplitlinesList (s.data.take 100)).head? with
  | none => exact absurd (List.head?_eq_none_iff.mp hh) this
  | some l => simp [hh]

theorem firstLineTrunc_empty : firstLineTrunc "" = none := rfl

theorem formatResults_ok (docs : List Document)
    (h : ∀ d ∈ docs, d.page_content ≠ "") :
    ∃ pr, formatResults docs = .ok pr ∧ pr.1.length = docs.length := by
  induction docs with
  | nil => exact ⟨([], ""), rfl, rfl⟩
  | cons d ds ih =>
    obtain ⟨pr, hpr, hlen⟩ := ih fun x hx => h x (List.mem_cons_of_mem d hx)
    have hs := firstLineTrunc_isSome d.page_content (h d (List.mem_cons_self d ds))
    cases hfl : firstLineTrunc d.page_content with
    | none => rw [hfl] at hs; simp at hs
    | some message =>
      refine ⟨(echoLine d.sha d.author d.date message :: pr.1,
               commitLine d.sha d.author d.date message ++ pr.2), ?_, by simp [hlen]⟩
      simp [formatResults, hfl, hpr, Except.map]

set_option maxRecDepth 8192 in
/-- Prompt construction succeeds for every commits block and every query,
and yields the template with the two fields substituted: the field names in
the template are exactly the keywords the chain is invoked with. -/
theorem builtPrompt_eq (commits question : String) :
    builtPrompt commits question
      = some (system_prompt ++ "\n\nCommit Messages:\n" ++ commits
          ++ "\n\nQuestion:\n" ++ question) := by
  have h : builtPrompt commits question
      = some ⟨(system_prompt ++ "\n\nCommit Messages:\n").data
          ++ (commits.data ++ ("\n\nQuestion:\n".data ++ (question.data ++ [])))⟩ := rfl
  rw [h]
  congr 1
  apply String.ext
  simp [String.data_append, List.append_assoc]

theorem pyStrLtList_trichotomy (a : List Char) : ∀ b : List Char,
    a = b ∨ pyStrLtList a b = true ∨ pyStrLtList b a = true := by
  induction a with
  | nil =>
    intro b
    cases b with
    | nil => exact .inl rfl
    | cons y ys => exact .inr (.inl rfl)
  | cons x xs ih =>
    intro b
    cases b with
    | nil => exact .inr (.inr rfl)
    | cons y ys =>
      rcases Nat.lt_trichotomy x.toNat y.toNat with h | h | h
      · exact .inr (.inl (by simp [pyStrLtList, h]))
      · have hxy : x = y := Char.eq_of_val_eq (UInt32.eq_of_toBitVec_eq (BitVec.eq_of_toNat_eq h))
        subst hxy
        rcases ih ys with h' | h' | h'
        · exact .inl (by rw [h'])
        · exact .inr (.inl (by simp [pyStrLtList, h']))
        · exact .inr (.inr (by simp [pyStrLtList, h']))
      · exact .inr (.inr (by simp [pyStrLtList, h]))

theorem pyStrLtList_trans (a : List Char) : ∀ b c : List Char,
    pyStrLtList a b = true → pyStrLtList b c = true → pyStrLtList a c = true := by
  induction a with
  | nil =>
    intro b c h1 h2
    cases b with
    | nil => simp [pyStrLtList] at h1
    | cons y ys =>
      cases c with
      | nil => simp [pyStrLtList] at h2
      | cons z zs => rfl
  | cons x xs ih =>
    intro b c h1 h2
    cases b with
    | nil => simp [pyStrLtList] at h1
    | cons y ys =>
      cases c with
      | nil => simp [pyStrLtList] at h2
      | cons z zs =>
        simp only [pyStrLtList] at h1 h2 ⊢
        by_cases hxy : x.toNat < y.toNat
        · by_cases hyz : y.toNat < z.toNat
          · simp [Nat.lt_trans hxy hyz]
          · rw [if_neg hyz] at h2
            by_cases hzy : z.toNat < y.toNat
            · rw [if_pos hzy] at h2; exact absurd h2 (by simp)
            · have heq : y.toNat = z.toNat :=
                Nat.le_antisymm (Nat.le_of_not_lt hzy) (Nat.le_of_not_lt hyz)
              simp [heq ▸ hxy]
        · rw [if_neg hxy] at h1
          by_cases hyx : y.toNat < x.toNat
          · rw [if_pos hyx] at h1; exact absurd h1 (by simp)
          · rw [if_neg hyx] at h1
            have hxyeq : x.toNat = y.toNat :=
              Nat.le_antisymm (Nat.le_of_not_lt hyx) (Nat.le_of_not_lt hxy)
            by_cases hyz : y.toNat < z.toNat
            · simp [hxyeq ▸ hyz]
            · rw [if_neg hyz] at h2
              by_cases hzy : z.toNat < y.toNat
              · rw [if_pos hzy] at h2; exact absurd h2 (by simp)
              · rw [if_neg hzy] at h2
                have hyzeq : y.toNat = z.toNat :=
                  Nat.le_antisymm (Nat.le_of_not_lt hzy) (Nat.le_of_not_lt hyz)
                have hxz : ¬ x.toNat < z.toNat := by
                  rw [hxyeq, hyzeq]; exact Nat.lt_irrefl _
                have hzx : ¬ z.toNat < x.toNat := by
                  rw [hxyeq, hyzeq]; exact Nat.lt_irrefl _
                rw [if_neg hxz, if_neg hzx]
                exact ih ys zs h1 h2

/-- Chaining the at-most relation induced by Python string comparison. -/
theorem pyStrLe_chain (g m r : String) (h1 : g = m ∨ pyStrLt g m = true)
    (h2 : m = r ∨ pyStrLt m r = true) : g = r ∨ pyStrLt g r = true := by
  rcases h1 with rfl | h1
  · exact h2
  · rcases h2 with rfl | h2
    · exact .inr h1
    · exact .inr (pyStrLtList_trans g.data m.data r.data h1 h2)

theorem foldlMax_mem (fs : List String) (f : String) :
    fs.foldl (fun a b => if pyStrLt a b then b else a) f ∈ f :: fs := by
  induction fs generalizing f with
  | nil => exact List.mem_singleton.mpr rfl
  | cons x fs ih =>
    simp only [List.foldl_cons]
    rcases List.mem_cons.mp (ih (if pyStrLt f x then x else f)) with hm | hm
    · rw [hm]
      by_cases hfx : pyStrLt f x = true
      · rw [if_pos hfx]; exact List.mem_cons_of_mem f (List.mem_cons_self x fs)
      · rw [if_neg hfx]; exact List.mem_cons_self f (x :: fs)
    · exact List.mem_cons_of_mem f (List.mem_cons_of_mem x hm)

theorem foldlMax_ge (fs : List String) : ∀ (f g : String), g ∈ f :: fs →
    g = fs.foldl (fun a b => if pyStrLt a b then b else a) f
    ∨ pyStrLt g (fs.foldl (fun a b => if pyStrLt a b then b else a) f) = true := by
  induction fs with
  | nil =>
    intro f g hg
    rcases List.mem_cons.mp hg with h | h
    · exact .inl h
    · simp at h
  | cons x fs ih =>
    intro f g hg
    simp only [List.foldl_cons]
    have hr := ih (if pyStrLt f x then x else f) (if pyStrLt f x then x else f)
      (List.mem_cons_self _ _)
    have hstep : g = (if pyStrLt f x then x else f)
        ∨ pyStrLt g (if pyStrLt f x then x else f) = true ∨ g ∈ fs := by
      rcases List.mem_cons.mp hg with h | h
      · subst h
        by_cases hfx : pyStrLt g x = true
        · rw [if_pos hfx]; exact .inr (.inl hfx)
        · rw [if_neg hfx]; exact .inl rfl
      · rcases List.mem_cons.mp h with h' | h'
        · subst h'
          by_cases hfx : pyStrLt f g = true
          · rw [if_pos hfx]; exact .inl rfl
          · rw [if_neg hfx]
            rcases pyStrLtList_trichotomy g.data f.data with he | hlt | hgt
            · exact .inl (String.ext he)
            · exact .inr (.inl hlt)
            · exact absurd hgt hfx
        · exact .inr (.inr h')
    rcases hstep with h | h | h
    · exact pyStrLe_chain g _ _ (.inl h) hr
    · exact pyStrLe_chain g _ _ (.inr h) hr
    · exact ih _ g (List.mem_cons_of_mem _ h)

theorem latestOf_spec (files : List String) (b : String) (h : latestOf files = some b) :
    b ∈ files ∧ ∀ g ∈ files, g = b ∨ pyStrLt g b = true := by
  match files, h with
  | f :: fs, h =>
    simp only [latestOf, Option.some.injEq] at h
    subst h
    exact ⟨foldlMax_mem fs f, fun g hg => foldlMax_ge fs f g hg⟩

theorem latestOf_eq_none (files : List String) (h : files = []) : latestOf files = none := by
  subst h; rfl

/-- Claim C2: each documented precondition failure exits with code 1:
prepare when the folder has no .git subdirectory; search when the query
exceeds 200 characters; search when no directory entry matches the
*-embeddings-*.json glob. -/
theorem C2_exit_code_one :
    (∀ (env : PrepareEnv) (provider model : String), env.hasGitDir = false →
      prepare env provider model = .error ⟨1, repoMissingMsg⟩)
    ∧ (∀ (env : SearchEnv) (q p m : String) (s : Bool) (lp lm : String) (k : Nat),
        q.length > 200 →
        search env q p m s lp lm k = .error (.exit ⟨1, queryTooLongMsg⟩))
    ∧ (∀ (env : SearchEnv) (q p m : String) (s : Bool) (lp lm : String) (k : Nat),
        globEmbedFiles env.dirNames = [] →
        isExitCodeOne (search env q p m s lp lm k) = true) := by
  refine ⟨fun env provider model h => by simp [prepare, h], ?_, ?_⟩
  · intro env q p m s lp lm k hq
    simp [search, hq]
  · intro env q p m s lp lm k hg
    by_cases hq : q.length > 200
    · simp [search, hq, isExitCodeOne]
    · simp [search, hq, latestOf_eq_none _ hg, isExitCodeOne]

set_option maxRecDepth 4096 in
theorem C2_exit_code_one_witness :
    prepare ⟨false, "main", "", "20250101000000", "t", "alpha", "alpha", ⟨none⟩⟩ "hf" "m"
      = .error ⟨1, repoMissingMsg⟩
    ∧ search ⟨["x-embeddings-1.json"], (fun _ => ⟨"main", "t", "hf", 0, "p", "cd"⟩), [], ⟨none⟩⟩
        ⟨List.replicate 201 'q'⟩ "hf" "m" false "openai" "g" 5
      = .error (.exit ⟨1, queryTooLongMsg⟩)
    ∧ isExitCodeOne
        (search ⟨["notes.txt"], (fun _ => ⟨"main", "t", "hf", 0, "p", "cd"⟩), [], ⟨none⟩⟩
          "query" "hf" "m" false "openai" "g" 5) = true :=
  ⟨C2_exit_code_one.1 _ "hf" "m" rfl,
   C2_exit_code_one.2.1 _ _ "hf" "m" false "openai" "g" 5 (by decide),
   C2_exit_code_one.2.2 _ "query" "hf" "m" false "openai" "g" 5 (by decide)⟩

/-- Claim C3: whenever search runs the similarity search (that is, returns
an outcome), the chroma directory it opened the vector store on was read
from the metadata file whose filename is greatest in Python string order
among all directory entries matching *-embeddings-*.json. -/
theorem C3_search_uses_latest (env : SearchEnv) (q p m : String) (s : Bool)
    (lp lm : String) (k : Nat) (out : SearchOutcome)
    (h : search env q p m s lp lm k = .ok out) :
    ∃ best, latestOf (globEmbedFiles env.dirNames) = some best
      ∧ best ∈ globEmbedFiles env.dirNames
      ∧ (∀ g ∈ globEmbedFiles env.dirNames, g = best ∨ pyStrLt g best = true)
      ∧ out.chromaDirUsed = (env.content best).chroma_dir := by
  unfold search at h
  by_cases hq : q.length > 200
  · simp [hq] at h
  · simp only [hq, if_false] at h
    cases hl : latestOf (globEmbedFiles env.dirNames) with
    | none => rw [hl] at h; exact absurd h (by simp)
    | some latest =>
      rw [hl] at h
      obtain ⟨hmem, hge⟩ := latestOf_spec _ _ hl
      refine ⟨latest, rfl, hmem, hge, ?_⟩
      cases hemb : getEmbeddings env.os p m with
      | error f => rw [hemb] at h; simp at h
      | ok emb =>
        rw [hemb] at h
        cases hfr : formatResults env.results with
        | error e => rw [hfr] at h; simp at h
        | ok pr =>
          rw [hfr] at h
          obtain ⟨lines, commits⟩ := pr
          by_cases hs : s = true
          · simp only [hs, if_true] at h
            cases hll : getLlmProvider env.os lp lm with
            | error f => rw [hll] at h; simp at h
            | ok llm =>
              rw [hll] at h
              cases hbp : builtPrompt commits q with
              | none => rw [hbp] at h; simp at h
              | some prompt =>
                rw [hbp] at h
                simp only [Except.ok.injEq] at h
                subst h
                rfl
          · have hs2 : s = false := by simpa using hs
            subst hs2
            simp only [Bool.false_eq_true, reduceIte, Except.ok.injEq] at h
            subst h
            rfl

set_option maxRecDepth 4096 in
theorem C3_search_uses_latest_witness :
    search ⟨["a-embeddings-20250101000000.json", "b-embeddings-20250102000000.json"],
        (fun n => ⟨"main", "t", "hf", 0, "p", n ++ ".chroma"⟩), [], ⟨none⟩⟩
      "fix" "hf" "m" false "openai" "g" 5
      = .ok ⟨"b-embeddings-20250102000000.json" ++ ".chroma", .huggingFace "m", [], "", none⟩
    ∧ (⟨"b-embeddings-20250102000000.json" ++ ".chroma", .huggingFace "m", [], "",
        none⟩ : SearchOutcome).chromaDirUsed
      = "b-embeddings-20250102000000.json" ++ ".chroma" := by
  refine ⟨rfl, ?_⟩
  obtain ⟨best, hb, -, -, hcd⟩ := C3_search_uses_latest
    ⟨["a-embeddings-20250101000000.json", "b-embeddings-20250102000000.json"],
      (fun n => ⟨"main", "t", "hf", 0, "p", n ++ ".chroma"⟩), [], ⟨none⟩⟩
    "fix" "hf" "m" false "openai" "g" 5
    ⟨"b-embeddings-20250102000000.json" ++ ".chroma", .huggingFace "m", [], "", none⟩ rfl
  have hbb : (some best : Option String) = some "b-embeddings-20250102000000.json" :=
    hb.symm.trans rfl
  cases Option.some.inj hbb
  exact hcd

/-- search reads its environment only through the directory listing, the
chroma_dir field of the metadata payloads, the retrieved documents, and
the process environment; environments agreeing there behave identically. -/
theorem search_env_congr (env env' : SearchEnv)
    (hdn : env'.dirNames = env.dirNames)
    (hcd : ∀ n, (env'.content n).chroma_dir = (env.content n).chroma_dir)
    (hres : env'.results = env.results)
    (hos : env'.os = env.os) :
    ∀ q p m s lp lm k, search env' q p m s lp lm k = search env q p m s lp lm k := by
  intro q p m s lp lm k
  unfold search
  rw [hdn, hres, hos]
  simp only [hcd]

/-- Claim C10: search embeds the query with the embedding provider and
model given on its own command line and never with the provider recorded
in the metadata file it loads: rewriting the provider field stored in
every metadata payload changes nothing about the run (in particular no
error or warning arises when the stored and command-line providers
differ), and on success the embedding client used is exactly the one
_get_embeddings builds from the command-line provider and model. -/
theorem C10_cli_provider_only (env : SearchEnv) (alter : String → String)
    (q p m : String) (s : Bool) (lp lm : String) (k : Nat) :
    search { env with content := fun n => { env.content n with provider := alter n } }
        q p m s lp lm k
      = search env q p m s lp lm k
    ∧ (∀ out, search env q p m s lp lm k = .ok out →
        getEmbeddings env.os p m = .ok out.embeddingUsed) := by
  constructor
  · exact search_env_congr env
      { env with content := fun n => { env.content n with provider := alter n } }
      rfl (fun n => rfl) rfl rfl q p m s lp lm k
  · intro out h
    unfold search at h
    by_cases hq : q.length > 200
    · simp [hq] at h
    · simp only [hq, if_false] at h
      cases hl : latestOf (globEmbedFiles env.dirNames) with
      | none => rw [hl] at h; exact absurd h (by simp)
      | some latest =>
        rw [hl] at h
        cases hemb : getEmbeddings env.os p m with
        | error f => rw [hemb] at h; simp at h
        | ok emb =>
          rw [hemb] at h
          cases hfr : formatResults env.results with
          | error e => rw [hfr] at h; simp at h
          | ok pr =>
            rw [hfr] at h
            obtain ⟨lines, commits⟩ := pr
            by_cases hs : s = true
            · simp only [hs, if_true] at h
              cases hll : getLlmProvider env.os lp lm with
              | error f => rw [hll] at h; simp at h
              | ok llm =>
                rw [hll] at h
                cases hbp : builtPrompt commits q with
                | none => rw [hbp] at h; simp at h
                | some prompt =>
                  rw [hbp] at h
                  simp only [Except.ok.injEq] at h
                  subst h
                  rfl
            · have hs2 : s = false := by simpa using hs
              subst hs2
              simp only [Bool.false_eq_true, reduceIte, Except.ok.injEq] at h
              subst h
              rfl

theorem C10_cli_provider_only_witness :
    search ⟨["x-embeddings-1.json"],
        (fun n => { (⟨"main", "t", "openai", 1, "p", "cd"⟩ : Payload) with
          provider := (fun _ => "mystery") n }), [], ⟨none⟩⟩
      "q" "hf" "m" false "openai" "g" 5
      = search ⟨["x-embeddings-1.json"], (fun _ => ⟨"main", "t", "openai", 1, "p", "cd"⟩),
          [], ⟨none⟩⟩ "q" "hf" "m" false "openai" "g" 5
    ∧ getEmbeddings (⟨none⟩ : OsEnv) "hf" "m"
      = .ok (SearchOutcome.embeddingUsed ⟨"cd", .huggingFace "m", [], "", none⟩) :=
  ⟨(C10_cli_provider_only
      ⟨["x-embeddings-1.json"], (fun _ => ⟨"main", "t", "openai", 1, "p", "cd"⟩), [], ⟨none⟩⟩
      (fun _ => "mystery") "q" "hf" "m" false "openai" "g" 5).1,
   (C10_cli_provider_only
      ⟨["x-embeddings-1.json"], (fun _ => ⟨"main", "t", "openai", 1, "p", "cd"⟩), [], ⟨none⟩⟩
      (fun _ => "mystery") "q" "hf" "m" false "openai" "g" 5).2
      ⟨"cd", .huggingFace "m", [], "", none⟩ rfl⟩

/-- Claim C9: in the result-formatting loop of search, taking the first
line of the first 100 characters of a stored message is in bounds for
every non-empty message, out of bounds for the empty message (the
IndexError), so the loop is safe exactly under the precondition that every
indexed commit message is non-empty. -/
theorem C9_first_line_bounds :
    (∀ s : String, s ≠ "" → (firstLineTrunc s).isSome = true)
    ∧ firstLineTrunc "" = none
    ∧ (∀ docs : List Document, (∀ d ∈ docs, d.page_content ≠ "") →
        formatResults docs ≠ .error .indexError)
    ∧ formatResults [⟨"", "abc", "Alice", "Mon"⟩] = .error .indexError := by
  refine ⟨firstLineTrunc_isSome, rfl, ?_, rfl⟩
  intro docs hne
  obtain ⟨pr, hpr, -⟩ := formatResults_ok docs hne
  rw [hpr]
  simp

theorem C9_first_line_bounds_witness :
    (firstLineTrunc "fix bug").isSome = true
    ∧ formatResults [⟨"fix bug", "abc", "Alice", "Mon"⟩] ≠ .error .indexError :=
  ⟨C9_first_line_bounds.1 "fix bug" (by decide),
   C9_first_line_bounds.2.2.1 [⟨"fix bug", "abc", "Alice", "Mon"⟩] (by decide)⟩

/-- Claim C4 as stated fails on the code: with a retrieved result whose
stored message is empty, the formatting loop raises IndexError and no
prompt is ever built, so prompt construction does not succeed for every
retrieved result set and query. -/
theorem C4_counterexample :
    search ⟨["x-embeddings-1.json"], (fun _ => ⟨"main", "t", "hf", 1, "p", "cd"⟩),
        [⟨"", "abc", "Alice", "Mon"⟩], ⟨some "sk"⟩⟩
      "why" "hf" "m" true "openai" "gpt" 5 = .error .indexError := rfl

/-- Claim C4 amended: when search is invoked with the summarize flag and
every retrieved result has a non-empty stored message, the loop formats
one line per commit (sha, author, date, first line of the truncated
message), a single prompt is built from the commits block and the query by
substituting them into the fixed template, the construction succeeds, and
that prompt is what is forwarded to the chat model. -/
theorem C4_summarize_prompt (env : SearchEnv) (q p m lp lm : String) (k : Nat)
    (hq : ¬ q.length > 200)
    (hfiles : globEmbedFiles env.dirNames ≠ [])
    (hmsg : ∀ d ∈ env.results, d.page_content ≠ "")
    (hemb : ∃ e, getEmbeddings env.os p m = .ok e)
    (hllm : ∃ l, getLlmProvider env.os lp lm = .ok l) :
    ∃ out lines commits,
      search env q p m true lp lm k = .ok out
      ∧ formatResults env.results = .ok (lines, commits)
      ∧ lines.length = env.results.length
      ∧ out.echoLines = lines
      ∧ out.commitsBlock = commits
      ∧ out.promptSent = some (system_prompt ++ "\n\nCommit Messages:\n" ++ commits
          ++ "\n\nQuestion:\n" ++ q) := by
  obtain ⟨e, he⟩ := hemb
  obtain ⟨l, hlp⟩ := hllm
  obtain ⟨pr, hpr, hlen⟩ := formatResults_ok env.results hmsg
  obtain ⟨lines, commits⟩ := pr
  cases hl : latestOf (globEmbedFiles env.dirNames) with
  | none =>
    cases hgl : globEmbedFiles env.dirNames with
    | nil => exact absurd hgl hfiles
    | cons a as => rw [hgl] at hl; exact absurd hl (by simp [latestOf])
  | some latest =>
    refine ⟨⟨(env.content latest).chroma_dir, e, lines, commits,
      some (system_prompt ++ "\n\nCommit Messages:\n" ++ commits ++ "\n\nQuestion:\n" ++ q)⟩,
      lines, commits, ?_, hpr, hlen, rfl, rfl, rfl⟩
    simp [search, hq, hl, he, hpr, hlp, builtPrompt_eq]

set_option maxRecDepth 8192 in
theorem C4_summarize_prompt_witness :
    search ⟨["x-embeddings-1.json"], (fun _ => ⟨"main", "t", "hf", 1, "p", "cd"⟩),
        [⟨"fix bug", "abc", "Alice", "Mon"⟩], ⟨some "sk"⟩⟩
      "why" "hf" "m" true "openai" "gpt" 5
      = .ok ⟨"cd", .huggingFace "m",
          [echoLine "abc" "Alice" "Mon" "fix bug"],
          commitLine "abc" "Alice" "Mon" "fix bug",
          some (system_prompt ++ "\n\nCommit Messages:\n"
            ++ commitLine "abc" "Alice" "Mon" "fix bug" ++ "\n\nQuestion:\n" ++ "why")⟩ := by
  obtain ⟨-, -, -, -, -, -, -, -, -⟩ :=
    C4_summarize_prompt
      ⟨["x-embeddings-1.json"], (fun _ => ⟨"main", "t", "hf", 1, "p", "cd"⟩),
        [⟨"fix bug", "abc", "Alice", "Mon"⟩], ⟨some "sk"⟩⟩
      "why" "hf" "m" "openai" "gpt" 5
      (by decide) (by decide) (by decide)
      ⟨.huggingFace "m", rfl⟩ ⟨.chatOpenAI "gpt", rfl⟩
  exact rfl

theorem applyWrite_nodup (fs : List String) (p : String) (h : fs.Nodup) :
    (applyWrite fs p).Nodup := by
  unfold applyWrite
  by_cases hp : p ∈ fs
  · simpa [hp]
  · simp [hp, List.nodup_append, h]

theorem foldlWrites_nodup (ws : List FileWrite) : ∀ fs : List String, fs.Nodup →
    (ws.foldl (fun a w => applyWrite a w.path) fs).Nodup := by
  induction ws with
  | nil => intro fs h; exact h
  | cons w ws ih => intro fs h; exact ih _ (applyWrite_nodup fs w.path h)

theorem runPrepares_nodup (invs : List (PrepareEnv × String × String)) :
    (runPrepares invs).Nodup := by
  unfold runPrepares
  have hgen : ∀ fs : List String, fs.Nodup → (invs.foldl
      (fun fs inv =>
        match prepare inv.1 inv.2.1 inv.2.2 with
        | .ok writes => writes.foldl (fun a w => applyWrite a w.path) fs
        | .error _ => fs) fs).Nodup := by
    induction invs with
    | nil => intro fs h; exact h
    | cons inv invs ih =>
      intro fs h
      simp only [List.foldl_cons]
      cases hp : prepare inv.1 inv.2.1 inv.2.2 with
      | ok writes => exact ih _ (foldlWrites_nodup writes fs h)
      | error f => exact ih _ h
  exact hgen [] List.nodup_nil

set_option maxRecDepth 4096 in
/-- Claim C6 as stated fails on the code: two prepare invocations within
the same clock second against differently named folders leave two metadata
files whose names carry the same timestamp. -/
theorem C6_counterexample :
    runPrepares
        [(⟨true, "main", "", "20250101000000", "t", "alpha", "alpha", ⟨none⟩⟩, "hf", "m"),
         (⟨true, "main", "", "20250101000000", "t", "beta", "beta", ⟨none⟩⟩, "hf", "m")]
      = [".tmp/alpha-embeddings-20250101000000.json",
         ".tmp/beta-embeddings-20250101000000.json"]
    ∧ ((runPrepares
        [(⟨true, "main", "", "20250101000000", "t", "alpha", "alpha", ⟨none⟩⟩, "hf", "m"),
         (⟨true, "main", "", "20250101000000", "t", "beta", "beta", ⟨none⟩⟩, "hf", "m")]).filter
          fun n => strEndsWith n (timestampSuffix "20250101000000")).length = 2 :=
  ⟨rfl, rfl⟩

/-- Claim C6 amended: across any sequence of prepare invocations the
working directory holds at most one metadata file per folder-name and
timestamp pair: the filename is a function of that pair, and write_text
overwrites in place rather than duplicating a name. -/
theorem C6_one_file_per_folder_timestamp
    (invs : List (PrepareEnv × String × String)) (folderName timestamp : String) :
    ((runPrepares invs).filter
        fun n => n == embedFilename folderName timestamp).length ≤ 1 := by
  have h2 := List.nodup_iff_count_le_one.mp (runPrepares_nodup invs)
    (embedFilename folderName timestamp)
  rw [List.count, List.countP_eq_length_filter] at h2
  exact h2

end GitLogSearch
